import Mathlib

/-!
Shallow embedding of the library management program (`librarymangement.py`).

The program keeps students, books and issue records in a relational store
(three tables with auto-increment primary keys) and every GUI handler runs
one or two parameterized SQL statements against it.  The store is modelled
as explicit lists of rows together with the three auto-increment counters,
and each handler becomes a pure function on that state.  Handlers that can
refuse an input (empty name / title) return `Except String DB`; the return
handler, which shows a notice and writes nothing when the selected record
is already returned, returns `Option DB` with `none` on that error path.
-/

/-- Calendar date, as Python's `datetime.date` (year, month, day). -/
structure PyDate where
  year : Nat
  month : Nat
  day : Nat
deriving DecidableEq, Inhabited

/-- Decimal digits of `n`, zero-padded on the left to width `w`.  Models the
fixed-width decimal fields of Python's `date.isoformat` output. -/
def padNat (w n : Nat) : List Char :=
  List.replicate (w - (Nat.toDigits 10 n).length) '0' ++ Nat.toDigits 10 n

/-- Models Python's `date.isoformat`: the string `YYYY-MM-DD`. -/
def PyDate.isoformat (d : PyDate) : String :=
  String.mk (padNat 4 d.year ++ '-' :: (padNat 2 d.month ++ '-' :: padNat 2 d.day))

/-- Row of the `students` table (`student_id` PK, `name` NOT NULL, `age`,
`course`, `year`).  The program only ever writes strings into `course`, so it
is modelled as `String`; the nullable integer columns are `Option Int`. -/
structure Student where
  student_id : Nat
  name : String
  age : Option Int
  course : String
  year : Option Int
deriving DecidableEq, Inhabited

/-- Row of the `books` table (`book_id` PK, `title` NOT NULL, `author`,
`pub_year`, `status` defaulting to `"Available"`). -/
structure Book where
  book_id : Nat
  title : String
  author : String
  pub_year : Option Int
  status : String
deriving DecidableEq, Inhabited

/-- Row of the `issued_books` table (`issue_id` PK, `student_id` FK,
`book_id` FK, `issue_date`, `return_date` nullable). -/
structure IssueRecord where
  issue_id : Nat
  student_id : Nat
  book_id : Nat
  issue_date : Option PyDate
  return_date : Option PyDate
deriving DecidableEq, Inhabited

/-- The persistent state: the three tables plus their auto-increment
counters (the next primary key each table will assign). -/
structure DB where
  students : List Student
  books : List Book
  issued : List IssueRecord
  next_student_id : Nat
  next_book_id : Nat
  next_issue_id : Nat
deriving DecidableEq, Inhabited

/-- Empty store right after `init_db` (MySQL auto-increment starts at 1). -/
def initDB : DB := ⟨[], [], [], 1, 1, 1⟩

deriving instance DecidableEq for Except

/-- Models Python's `str.strip()`: drop leading and trailing whitespace. -/
def pyStrip (s : String) : String :=
  String.mk (((s.toList.dropWhile Char.isWhitespace).reverse.dropWhile
    Char.isWhitespace).reverse)

/-- Value of a decimal digit character, `none` for any other character. -/
def digitVal (c : Char) : Option Nat :=
  if '0' ≤ c ∧ c ≤ '9' then some (c.toNat - '0'.toNat) else none

/-- Nonempty all-digit character list to its value, `none` otherwise. -/
def parseNatChars (ds : List Char) : Option Nat :=
  if ds.isEmpty then none
  else ds.foldl (fun acc c =>
    match acc, digitVal c with
    | some n, some d => some (n * 10 + d)
    | _, _ => none) (some 0)

/-- Models Python's `int(s)`: surrounding whitespace ignored, an optional
sign followed by decimal digits; `none` where `int` raises. -/
def pyInt (s : String) : Option Int :=
  match (pyStrip s).toList with
  | '-' :: ds => (parseNatChars ds).map (fun n => -(n : Int))
  | '+' :: ds => (parseNatChars ds).map (fun n => (n : Int))
  | ds => (parseNatChars ds).map (fun n => (n : Int))

/-- Models `StudentPage._int_or_none` / `BookPage._int_or_none`:
`int(s)` with any exception mapped to `None`. -/
def int_or_none (s : String) : Option Int :=
  pyInt s

/-- Models `StudentPage.add_student`: reject a blank name, otherwise insert
`(name, _int_or_none(age), course.strip(), _int_or_none(year))` with the next
auto-increment id. -/
def add_student (db : DB) (name age course year : String) : Except String DB :=
  if (pyStrip name) = "" then Except.error "Name is required"
  else Except.ok { db with
    students := db.students ++
      [⟨db.next_student_id, (pyStrip name), int_or_none age, (pyStrip course), int_or_none year⟩],
    next_student_id := db.next_student_id + 1 }

/-- Models `StudentPage.update_student`: reject a blank name, otherwise run
`UPDATE students SET name=, age=, course=, year= WHERE student_id=sid`
(updating no row when no row matches). -/
def update_student (db : DB) (sid : Nat) (name age course year : String) :
    Except String DB :=
  if (pyStrip name) = "" then Except.error "Name is required"
  else Except.ok { db with
    students := db.students.map (fun s =>
      if s.student_id == sid then
        { s with name := (pyStrip name), age := int_or_none age,
                 course := (pyStrip course), year := int_or_none year }
      else s) }

/-- Models `StudentPage.delete_student`: `DELETE FROM students WHERE
student_id=sid`; the `ON DELETE CASCADE` foreign key removes every issue
record referencing that student. -/
def delete_student (db : DB) (sid : Nat) : DB :=
  { db with
    students := db.students.filter (fun s => !(s.student_id == sid)),
    issued := db.issued.filter (fun r => !(r.student_id == sid)) }

/-- Models `BookPage.add_book`: reject a blank title, otherwise insert
`(title, author.strip(), _int_or_none(pub_year))`; the `status` column takes
its schema default `"Available"`. -/
def add_book (db : DB) (title author pubyear : String) : Except String DB :=
  if (pyStrip title) = "" then Except.error "Title required"
  else Except.ok { db with
    books := db.books ++
      [⟨db.next_book_id, (pyStrip title), (pyStrip author), int_or_none pubyear, "Available"⟩],
    next_book_id := db.next_book_id + 1 }

/-- Models `BookPage.update_book`: reject a blank title, otherwise run
`UPDATE books SET title=, author=, pub_year= WHERE book_id=bid`
(the status column is not touched). -/
def update_book (db : DB) (bid : Nat) (title author pubyear : String) :
    Except String DB :=
  if (pyStrip title) = "" then Except.error "Title required"
  else Except.ok { db with
    books := db.books.map (fun b =>
      if b.book_id == bid then
        { b with title := (pyStrip title), author := (pyStrip author),
                 pub_year := int_or_none pubyear }
      else b) }

/-- Models `BookPage.delete_book`: `DELETE FROM books WHERE book_id=bid`;
cascade removes the issue records of that book. -/
def delete_book (db : DB) (bid : Nat) : DB :=
  { db with
    books := db.books.filter (fun b => !(b.book_id == bid)),
    issued := db.issued.filter (fun r => !(r.book_id == bid)) }

/-- Case-insensitive prefix test on character lists (ASCII folding via
`Char.toLower`, matching MySQL's default case-insensitive collation). -/
def isPrefixCI : List Char → List Char → Bool
  | [], _ => true
  | _ :: _, [] => false
  | a :: as, b :: bs => (a.toLower == b.toLower) && isPrefixCI as bs

/-- Case-insensitive substring test: some suffix of `hay` starts with `q`
(up to `Char.toLower`).  This is the claim-level reading of
"contains the query as a substring, matching case-insensitively". -/
def containsCI (hay q : String) : Bool :=
  hay.toList.tails.any (fun t => isPrefixCI q.toList t)

/-- Models the SQL `LIKE` pattern matcher of MySQL for patterns without the
escape character: `%` matches any (possibly empty) character sequence, `_`
matches exactly one character, and any other pattern character matches
itself case-insensitively (default collation).  Structural recursion on the
pattern: a `%` consumes some suffix of the subject via `List.tails`. -/
def likeMatch : List Char → List Char → Bool
  | [], s => s.isEmpty
  | q :: ps, s =>
    if q = '%' then s.tails.any (fun t => likeMatch ps t)
    else
      match s with
      | [] => false
      | h :: t => (q == '_' || q.toLower == h.toLower) && likeMatch ps t

/-- Models the SQL condition `column LIKE CONCAT('%', q, '%')` that both
search handlers build with `"%"+q+"%"`. -/
def sqlLike (hay q : String) : Bool :=
  likeMatch ('%' :: (q.toList ++ ['%'])) hay.toList

/-- Models `StudentPage.search_students`: strip the query; an empty stripped
query falls back to `fetch_students` (all rows); otherwise
`SELECT ... FROM students WHERE name LIKE %q% OR course LIKE %q%`. -/
def search_students (db : DB) (query : String) : List Student :=
  if (pyStrip query) = "" then db.students
  else db.students.filter (fun s => sqlLike s.name (pyStrip query) || sqlLike s.course (pyStrip query))

/-- Models `BookPage.search_books`: same shape over `title`/`author`. -/
def search_books (db : DB) (query : String) : List Book :=
  if (pyStrip query) = "" then db.books
  else db.books.filter (fun b => sqlLike b.title (pyStrip query) || sqlLike b.author (pyStrip query))

/-- The query string contains no `LIKE` metacharacter (`%`, `_`) and no
escape character (`\`). -/
def noWildcard (s : String) : Bool :=
  s.toList.all (fun c => !(c == '%') && !(c == '_') && !(c == '\\'))

/-- Follows the words of claim C4 (not the code): the rows whose name or
course contains the raw query as a substring case-insensitively, all rows
when the query is empty. -/
def claimSearchStudents (db : DB) (q : String) : List Student :=
  if q = "" then db.students
  else db.students.filter (fun s => containsCI s.name q || containsCI s.course q)

/-- Follows the words of claim C4 (not the code), book side. -/
def claimSearchBooks (db : DB) (q : String) : List Book :=
  if q = "" then db.books
  else db.books.filter (fun b => containsCI b.title q || containsCI b.author q)

/-- Models the list the book picker is populated from
(`IssuePage.refresh_comboboxes`):
`SELECT book_id, title FROM books WHERE status='Available'`. -/
def available_books (db : DB) : List (Nat × String) :=
  (db.books.filter (fun b => b.status == "Available")).map (fun b => (b.book_id, b.title))

/-- Models `IssuePage.issue_book` after both pickers have a selection:
`INSERT INTO issued_books (student_id, book_id, issue_date) VALUES
(sid, bid, today)` (so `return_date` is NULL and `issue_id` is the next
auto-increment id) followed by
`UPDATE books SET status='Issued' WHERE book_id=bid`. -/
def issue_book (db : DB) (sid bid : Nat) (today : PyDate) : DB :=
  { db with
    issued := db.issued ++ [⟨db.next_issue_id, sid, bid, some today, none⟩],
    next_issue_id := db.next_issue_id + 1,
    books := db.books.map (fun b =>
      if b.book_id == bid then { b with status := "Issued" } else b) }

/-- Models the date rendering of `IssuePage.fetch_issued`:
`r.isoformat() if r else ""` — a null date becomes the empty string. -/
def fmtOptDate : Option PyDate → String
  | none => ""
  | some d => d.isoformat

/-- Models `IssuePage.return_book` on a selected row carrying `issue_id`,
`book_id` and the displayed return date `shown`: if `shown` is neither
empty nor `"None"` the handler only shows "already returned" and writes
nothing (`none`); otherwise it runs
`UPDATE issued_books SET return_date=today WHERE issue_id=iid` and
`UPDATE books SET status='Available' WHERE book_id=bid`. -/
def return_book (db : DB) (iid bid : Nat) (shown : String) (today : PyDate) :
    Option DB :=
  if shown = "" ∨ shown = "None" then
    some { db with
      issued := db.issued.map (fun r =>
        if r.issue_id == iid then { r with return_date := some today } else r),
      books := db.books.map (fun b =>
        if b.book_id == bid then { b with status := "Available" } else b) }
  else none

/-- Row shown by the issued-books table: issue id, student id and name,
book id and title, and the two rendered dates. -/
structure IssuedRow where
  issue_id : Nat
  student_id : Nat
  student_name : String
  book_id : Nat
  title : String
  issue_date : String
  return_date : String
deriving DecidableEq, Inhabited

/-- Models the `JOIN` of `IssuePage.fetch_issued` for one issue record: the
matching student row and book row, or `none` when a foreign key does not
resolve (the SQL inner join drops such records). -/
def joinRow (db : DB) (r : IssueRecord) : Option IssuedRow :=
  match db.students.find? (fun s => s.student_id == r.student_id),
        db.books.find? (fun b => b.book_id == r.book_id) with
  | some s, some b =>
      some ⟨r.issue_id, s.student_id, s.name, b.book_id, b.title,
            fmtOptDate r.issue_date, fmtOptDate r.return_date⟩
  | _, _ => none

/-- Descending issue-id order used by `ORDER BY ib.issue_id DESC`. -/
def rowGE (a b : IssuedRow) : Prop := b.issue_id ≤ a.issue_id

instance : DecidableRel rowGE := fun a b => Nat.decLe b.issue_id a.issue_id

instance : IsTotal IssuedRow rowGE :=
  ⟨fun a b => (Nat.le_total b.issue_id a.issue_id).imp id id⟩

instance : IsTrans IssuedRow rowGE :=
  ⟨fun _ _ _ hab hbc => Nat.le_trans hbc hab⟩

/-- Models `IssuePage.fetch_issued`: join every issue record with its
student and book and order the rows newest `issue_id` first. -/
def fetch_issued (db : DB) : List IssuedRow :=
  List.insertionSort rowGE (db.issued.filterMap (fun r => joinRow db r))

/-- Interprets an `Except`-returning handler as a state transition: on the
error path the handler wrote nothing, so the state is unchanged. -/
def excDB (db : DB) : Except String DB → DB
  | Except.ok db2 => db2
  | Except.error _ => db

/-- One user-level operation of the workflow, with the discipline the GUI
imposes: `issue` is only invoked with a book offered by the picker
(`available_books`), and `ret` is invoked from a displayed row of an
existing issue record, so it carries that record's key, book id and
rendered return date. -/
inductive Step : DB → DB → Prop
  | addStudent (db : DB) (n a c y : String) :
      Step db (excDB db (add_student db n a c y))
  | updateStudent (db : DB) (sid : Nat) (n a c y : String) :
      Step db (excDB db (update_student db sid n a c y))
  | deleteStudent (db : DB) (sid : Nat) :
      Step db (delete_student db sid)
  | addBook (db : DB) (t au py : String) :
      Step db (excDB db (add_book db t au py))
  | updateBook (db : DB) (bid : Nat) (t au py : String) :
      Step db (excDB db (update_book db bid t au py))
  | deleteBook (db : DB) (bid : Nat) :
      Step db (delete_book db bid)
  | issue (db : DB) (sid bid : Nat) (today : PyDate)
      (hb : bid ∈ (available_books db).map Prod.fst) :
      Step db (issue_book db sid bid today)
  | ret (db : DB) (r : IssueRecord) (today : PyDate) (hr : r ∈ db.issued) :
      Step db ((return_book db r.issue_id r.book_id (fmtOptDate r.return_date) today).getD db)

/-- States reachable from the freshly initialized store by workflow steps. -/
inductive Reachable : DB → Prop
  | init : Reachable initDB
  | step {db db2 : DB} : Reachable db → Step db db2 → Reachable db2

/-- The record counts as an open loan of book `bid`. -/
def isOpenRec (bid : Nat) (r : IssueRecord) : Bool :=
  r.book_id == bid && r.return_date.isNone

/-- Open issue records of book `bid` among `l`. -/
def openRecs (l : List IssueRecord) (bid : Nat) : List IssueRecord :=
  l.filter (isOpenRec bid)

/-- Soft invariant of the spec: every book has at most one open issue
record. -/
def atMostOneOpen (db : DB) : Prop :=
  ∀ bid : Nat, (openRecs db.issued bid).length ≤ 1

/-- Strengthening needed for preservation: a book listed as Available has
no open issue record at all. -/
def availClean (db : DB) : Prop :=
  ∀ b ∈ db.books, b.status = "Available" → openRecs db.issued b.book_id = []

/-- Auto-increment discipline: every stored book id is below the counter. -/
def booksBounded (db : DB) : Prop :=
  ∀ b ∈ db.books, b.book_id < db.next_book_id

/-- Every issue record references a book id below the counter. -/
def issuedBounded (db : DB) : Prop :=
  ∀ r ∈ db.issued, r.book_id < db.next_book_id

/-- Inductive invariant of the workflow. -/
def WfInv (db : DB) : Prop :=
  atMostOneOpen db ∧ availClean db ∧ booksBounded db ∧ issuedBounded db

/-- Sample date used by concrete witnesses. -/
def dW : PyDate := ⟨2024, 1, 5⟩

/-- Second sample date used by concrete witnesses. -/
def dW2 : PyDate := ⟨2024, 2, 6⟩

/-- Sample state: one student, one available book, no issue records. -/
def dbW : DB :=
  ⟨[⟨1, "Asha Rao", some 20, "CS", some 2⟩],
   [⟨1, "Compilers", "Aho", some 2006, "Available"⟩],
   [], 2, 2, 1⟩

/-- Sample state: a single student named `"ab"`, nothing else. -/
def dbX : DB := ⟨[⟨1, "ab", none, "", none⟩], [], [], 2, 1, 1⟩

/-- Sample state with an open issue record for its single (issued) book. -/
def dbR : DB :=
  ⟨[⟨1, "ab", none, "", none⟩],
   [⟨1, "Compilers", "Aho", some 2006, "Issued"⟩],
   [⟨1, 1, 1, some dW, none⟩], 2, 2, 2⟩

/-- Sample state with one closed and one open issue record. -/
def dbJ : DB :=
  ⟨[⟨1, "ab", none, "", none⟩],
   [⟨1, "Compilers", "Aho", some 2006, "Issued"⟩, ⟨2, "Basics", "E", none, "Available"⟩],
   [⟨1, 1, 1, some dW, some dW2⟩, ⟨2, 1, 1, some dW, none⟩], 2, 3, 3⟩

/-! ### Helper lemmas -/

/-- An ISO-formatted date always contains a dash. -/
theorem dash_mem_isoformat (d : PyDate) : '-' ∈ (PyDate.isoformat d).data := by
  simp [PyDate.isoformat]

/-- An ISO-formatted date is never the empty string. -/
theorem isoformat_ne_empty (d : PyDate) : PyDate.isoformat d ≠ "" := by
  intro h
  have hm := dash_mem_isoformat d
  rw [h] at hm
  simp at hm

/-- An ISO-formatted date is never the literal string `"None"`. -/
theorem isoformat_ne_none_str (d : PyDate) : PyDate.isoformat d ≠ "None" := by
  intro h
  have hm := dash_mem_isoformat d
  rw [h] at hm
  have hn : ¬ ('-' ∈ ("None".data)) := by decide
  exact hn hm

/-! ### Claim C1 -/

/-- Claim C1: from a state where book `bid` is Available, a successful
`issue(sid, bid)` makes every stored row of that book Issued, appends
exactly one new issue record carrying `sid`, `bid`, today's date and a null
return date, and removes the book from the Available-books picker list. -/
theorem c1_issue_available (db : DB) (sid bid : Nat) (today : PyDate)
    (hfresh : ∀ r ∈ db.issued, r.issue_id < db.next_issue_id)
    (havail : ∃ b ∈ db.books, b.book_id = bid ∧ b.status = "Available") :
    (∀ b ∈ (issue_book db sid bid today).books, b.book_id = bid → b.status = "Issued")
    ∧ (∃ nr : IssueRecord,
        (issue_book db sid bid today).issued = db.issued ++ [nr]
        ∧ nr ∉ db.issued
        ∧ nr.student_id = sid ∧ nr.book_id = bid
        ∧ nr.issue_date = some today ∧ nr.return_date = none)
    ∧ (∀ p ∈ available_books (issue_book db sid bid today), p.1 ≠ bid) := by
  have hIssued :
      ∀ b ∈ (issue_book db sid bid today).books, b.book_id = bid → b.status = "Issued" := by
    intro b hb hid
    simp only [issue_book, List.mem_map] at hb
    obtain ⟨b0, hb0, rfl⟩ := hb
    by_cases h : b0.book_id = bid
    · simp [h]
    · simp only [beq_eq_false_iff_ne, ne_eq, h, not_false_eq_true, beq_iff_eq, if_neg h] at hid ⊢
      exact absurd hid h
  refine ⟨hIssued, ⟨⟨db.next_issue_id, sid, bid, some today, none⟩, rfl, ?_, rfl, rfl, rfl, rfl⟩, ?_⟩
  · intro hmem
    exact Nat.lt_irrefl _ (hfresh _ hmem)
  · intro p hp heq
    simp only [available_books, List.mem_map, List.mem_filter] at hp
    obtain ⟨b, ⟨hbmem, hbstat⟩, rfl⟩ := hp
    have : b.status = "Issued" := hIssued b hbmem heq
    rw [this] at hbstat
    simp at hbstat

/-- Concrete instantiation of `c1_issue_available` on `dbW`. -/
theorem c1_issue_available_witness :
    (∀ b ∈ (issue_book dbW 1 1 dW).books, b.book_id = 1 → b.status = "Issued")
    ∧ (∃ nr : IssueRecord,
        (issue_book dbW 1 1 dW).issued = dbW.issued ++ [nr]
        ∧ nr ∉ dbW.issued
        ∧ nr.student_id = 1 ∧ nr.book_id = 1
        ∧ nr.issue_date = some dW ∧ nr.return_date = none)
    ∧ (∀ p ∈ available_books (issue_book dbW 1 1 dW), p.1 ≠ 1) :=
  c1_issue_available dbW 1 1 dW (by decide) (by decide)

/-! ### Claim C10 -/

/-- Claim C10: a successful issue only appends the one new issue record and
flips the status of book `bid`: students are untouched, pre-existing issue
records are unchanged, and every book keeps its identity, title, author and
publication year, with status preserved for every book other than `bid`. -/
theorem c10_issue_frame (db : DB) (sid bid : Nat) (today : PyDate) :
    (issue_book db sid bid today).students = db.students
    ∧ (issue_book db sid bid today).issued.length = db.issued.length + 1
    ∧ (issue_book db sid bid today).issued.take db.issued.length = db.issued
    ∧ (issue_book db sid bid today).books.length = db.books.length
    ∧ (∀ b ∈ db.books, b.book_id ≠ bid → b ∈ (issue_book db sid bid today).books)
    ∧ (∀ b2 ∈ (issue_book db sid bid today).books, ∃ b ∈ db.books,
        b2.book_id = b.book_id ∧ b2.title = b.title ∧ b2.author = b.author
        ∧ b2.pub_year = b.pub_year ∧ (b.book_id ≠ bid → b2.status = b.status)) := by
  refine ⟨rfl, by simp [issue_book], ?_, by simp [issue_book], ?_, ?_⟩
  · simp only [issue_book]
    exact List.take_left db.issued [⟨db.next_issue_id, sid, bid, some today, none⟩]
  · intro b hb hne
    simp only [issue_book, List.mem_map]
    exact ⟨b, hb, by simp [hne]⟩
  · intro b2 hb2
    simp only [issue_book, List.mem_map] at hb2
    obtain ⟨b, hb, rfl⟩ := hb2
    by_cases h : b.book_id = bid
    · exact ⟨b, hb, by simp [h]⟩
    · exact ⟨b, hb, by simp [h]⟩

/-- Concrete instantiation of `c10_issue_frame` on `dbW`. -/
theorem c10_issue_frame_witness :
    (issue_book dbW 1 1 dW).students = dbW.students
    ∧ (issue_book dbW 1 1 dW).issued.length = dbW.issued.length + 1
    ∧ (issue_book dbW 1 1 dW).issued.take dbW.issued.length = dbW.issued
    ∧ (issue_book dbW 1 1 dW).books.length = dbW.books.length
    ∧ (∀ b ∈ dbW.books, b.book_id ≠ 1 → b ∈ (issue_book dbW 1 1 dW).books)
    ∧ (∀ b2 ∈ (issue_book dbW 1 1 dW).books, ∃ b ∈ dbW.books,
        b2.book_id = b.book_id ∧ b2.title = b.title ∧ b2.author = b.author
        ∧ b2.pub_year = b.pub_year ∧ (b.book_id ≠ 1 → b2.status = b.status)) :=
  c10_issue_frame dbW 1 1 dW

/-! ### Claim C7 -/

/-- Claim C7: deleting an existing student removes that student's row and,
by cascade, every issue record referencing it, while books and all other
students and issue records survive unchanged. -/
theorem c7_delete_cascade (db : DB) (sid : Nat)
    (hex : ∃ s ∈ db.students, s.student_id = sid) :
    (¬ ∃ s ∈ (delete_student db sid).students, s.student_id = sid)
    ∧ (∀ s : Student, s ∈ (delete_student db sid).students
        ↔ s ∈ db.students ∧ s.student_id ≠ sid)
    ∧ (delete_student db sid).books = db.books
    ∧ (∀ r : IssueRecord, r ∈ (delete_student db sid).issued
        ↔ r ∈ db.issued ∧ r.student_id ≠ sid) := by
  refine ⟨?_, ?_, rfl, ?_⟩
  · rintro ⟨s, hs, hid⟩
    simp only [delete_student, List.mem_filter, Bool.not_eq_eq_eq_not, Bool.not_true,
      beq_eq_false_iff_ne, ne_eq] at hs
    exact hs.2 hid
  · intro s
    simp [delete_student, List.mem_filter]
  · intro r
    simp [delete_student, List.mem_filter]

/-- Concrete instantiation of `c7_delete_cascade` on `dbR`. -/
theorem c7_delete_cascade_witness :
    (¬ ∃ s ∈ (delete_student dbR 1).students, s.student_id = 1)
    ∧ (∀ s : Student, s ∈ (delete_student dbR 1).students
        ↔ s ∈ dbR.students ∧ s.student_id ≠ 1)
    ∧ (delete_student dbR 1).books = dbR.books
    ∧ (∀ r : IssueRecord, r ∈ (delete_student dbR 1).issued
        ↔ r ∈ dbR.issued ∧ r.student_id ≠ 1) :=
  c7_delete_cascade dbR 1 (by decide)

/-! ### Claim C5 -/

/-- Claim C5 as stated is false: the name `" "` is a non-empty string, yet
`update_student` strips it, finds it blank, and reports an input error
instead of succeeding silently — here on a state where id 5 does not
identify any student. -/
theorem c5_update_missing_cx :
    (" " ≠ "")
    ∧ (∀ s ∈ dbX.students, s.student_id ≠ 5)
    ∧ update_student dbX 5 " " "" "" "" = Except.error "Name is required" := by
  refine ⟨by decide, by decide, by decide⟩

/-- Claim C5 amended: for a name that is non-blank after stripping
whitespace and an id not identifying any stored student, update raises no
error, reports success, and leaves the store (in particular every student
row) unchanged. -/
theorem c5_update_missing (db : DB) (sid : Nat) (name a c y : String)
    (hname : pyStrip name ≠ "")
    (hid : ∀ s ∈ db.students, s.student_id ≠ sid) :
    update_student db sid name a c y = Except.ok db := by
  simp only [update_student, if_neg hname]
  have hmap : db.students.map (fun s =>
      if s.student_id == sid then
        { s with name := (pyStrip name), age := int_or_none a,
                 course := (pyStrip c), year := int_or_none y }
      else s) = db.students := by
    have := List.map_congr_left (l := db.students)
      (f := fun s : Student =>
        if s.student_id == sid then
          { s with name := (pyStrip name), age := int_or_none a,
                   course := (pyStrip c), year := int_or_none y }
        else s)
      (g := fun s : Student => s)
      (fun s hs => by simp [hid s hs])
    simpa using this
  rw [hmap]

/-- Concrete instantiation of `c5_update_missing` on `dbX`. -/
theorem c5_update_missing_witness :
    update_student dbX 5 "Bob" "" "" "" = Except.ok dbX :=
  c5_update_missing dbX 5 "Bob" "" "" "" (by decide) (by decide)

/-! ### Claim C8 -/

/-- Claim C8 as stated is false: neither `_int_or_none` nor the insert
validates the sign, so `add_student` with age input `"-5"` persists the
negative age `-5`. -/
theorem c8_age_cx :
    add_student dbX "Bob" "-5" "" ""
      = Except.ok ⟨[⟨1, "ab", none, "", none⟩, ⟨2, "Bob", some (-5), "", none⟩],
          dbX.books, dbX.issued, 3, 1, 1⟩
    ∧ ((-5 : Int) < 0) := by
  refine ⟨by decide, by decide⟩

/-- Claim C8 amended: the persisted age is exactly `_int_or_none` of the
age input — `null` whenever the input does not parse as an integer (in
particular when blank), and otherwise the parsed integer, which may be
negative since no operation checks the sign. -/
theorem c8_age_field (db : DB) (sid : Nat) (name a c y : String)
    (hname : pyStrip name ≠ "") :
    (∃ st : Student,
        add_student db name a c y = Except.ok { db with
          students := db.students ++ [st],
          next_student_id := db.next_student_id + 1 }
        ∧ st.age = int_or_none a)
    ∧ (∀ db2 : DB, update_student db sid name a c y = Except.ok db2 →
        ∀ s ∈ db2.students, s.student_id = sid → s.age = int_or_none a)
    ∧ (∀ s : String, pyStrip s = "" → int_or_none s = none) := by
  refine ⟨⟨⟨db.next_student_id, pyStrip name, int_or_none a, pyStrip c, int_or_none y⟩,
    by simp [add_student, if_neg hname], rfl⟩, ?_, ?_⟩
  · intro db2 hdb2 s hs hsid
    simp only [update_student, if_neg hname, Except.ok.injEq] at hdb2
    subst hdb2
    simp only [List.mem_map] at hs
    obtain ⟨s0, hs0, rfl⟩ := hs
    by_cases h : s0.student_id = sid
    · simp [h]
    · rw [if_neg (by simpa using h)] at hsid
      exact absurd hsid h
  · intro s hs
    simp only [int_or_none, pyInt, hs]
    decide

/-- Concrete instantiation of `c8_age_field` on `dbX`. -/
theorem c8_age_field_witness :
    (∃ st : Student,
        add_student dbX "Bob" " 7 " "" "" = Except.ok { dbX with
          students := dbX.students ++ [st],
          next_student_id := dbX.next_student_id + 1 }
        ∧ st.age = int_or_none " 7 ")
    ∧ (∀ db2 : DB, update_student dbX 1 "Bob" " 7 " "" "" = Except.ok db2 →
        ∀ s ∈ db2.students, s.student_id = 1 → s.age = int_or_none " 7 ")
    ∧ (∀ s : String, pyStrip s = "" → int_or_none s = none) :=
  c8_age_field dbX 1 "Bob" " 7 " "" "" (by decide)

/-! ### Claim C9 -/

/-- Claim C9: on add, blank optional text fields (course, author) are
persisted as the empty string (the handler strips them, so a blank becomes
`""`), while blank or non-parsing input for the numeric optional fields is
persisted as null via `_int_or_none`, and the add succeeds regardless of
those numeric inputs — they are never rejected with an error. -/
theorem c9_optional_fields (db : DB) (name a c y title au py : String)
    (hname : pyStrip name ≠ "") (htitle : pyStrip title ≠ "") :
    (∃ st : Student,
        add_student db name a c y = Except.ok { db with
          students := db.students ++ [st],
          next_student_id := db.next_student_id + 1 }
        ∧ st.course = pyStrip c ∧ (pyStrip c = "" → st.course = "")
        ∧ st.age = int_or_none a ∧ st.year = int_or_none y)
    ∧ (∃ bk : Book,
        add_book db title au py = Except.ok { db with
          books := db.books ++ [bk],
          next_book_id := db.next_book_id + 1 }
        ∧ bk.author = pyStrip au ∧ (pyStrip au = "" → bk.author = "")
        ∧ bk.pub_year = int_or_none py ∧ bk.status = "Available")
    ∧ (∀ s : String, pyStrip s = "" → int_or_none s = none) := by
  refine ⟨⟨⟨db.next_student_id, pyStrip name, int_or_none a, pyStrip c, int_or_none y⟩,
      by simp [add_student, if_neg hname], rfl, fun h => h, rfl, rfl⟩,
    ⟨⟨db.next_book_id, pyStrip title, pyStrip au, int_or_none py, "Available"⟩,
      by simp [add_book, if_neg htitle], rfl, fun h => h, rfl, rfl⟩,
    ?_⟩
  intro s hs
  simp only [int_or_none, pyInt, hs]
  decide

/-- Concrete instantiation of `c9_optional_fields` on `dbX`. -/
theorem c9_optional_fields_witness :
    (∃ st : Student,
        add_student dbX "Bob" " " "" "x" = Except.ok { dbX with
          students := dbX.students ++ [st],
          next_student_id := dbX.next_student_id + 1 }
        ∧ st.course = pyStrip "" ∧ (pyStrip "" = "" → st.course = "")
        ∧ st.age = int_or_none " " ∧ st.year = int_or_none "x")
    ∧ (∃ bk : Book,
        add_book dbX "Odyssey" " " "n7" = Except.ok { dbX with
          books := dbX.books ++ [bk],
          next_book_id := dbX.next_book_id + 1 }
        ∧ bk.author = pyStrip " " ∧ (pyStrip " " = "" → bk.author = "")
        ∧ bk.pub_year = int_or_none "n7" ∧ bk.status = "Available")
    ∧ (∀ s : String, pyStrip s = "" → int_or_none s = none) :=
  c9_optional_fields dbX "Bob" " " "" "x" "Odyssey" " " "n7" (by decide) (by decide)

/-! ### Claim C2 -/

/-- Claim C2: returning an open issue record (displayed return date is the
empty string) succeeds, stamping today's date on that record and setting
the referenced book back to Available; a second return on the same record —
whose displayed return date is now the rendered ISO date — takes the
already-returned error path and performs no write at all. -/
theorem c2_return_twice (db : DB) (r : IssueRecord) (today t2 : PyDate)
    (hr : r ∈ db.issued) (hopen : r.return_date = none) :
    ∃ db2 : DB,
      return_book db r.issue_id r.book_id (fmtOptDate r.return_date) today = some db2
      ∧ (∀ r2 ∈ db2.issued, r2.issue_id = r.issue_id → r2.return_date = some today)
      ∧ (∀ b ∈ db2.books, b.book_id = r.book_id → b.status = "Available")
      ∧ return_book db2 r.issue_id r.book_id (fmtOptDate (some today)) t2 = none := by
  refine ⟨{ db with
      issued := db.issued.map (fun r0 =>
        if r0.issue_id == r.issue_id then { r0 with return_date := some today } else r0),
      books := db.books.map (fun b =>
        if b.book_id == r.book_id then { b with status := "Available" } else b) },
    ?_, ?_, ?_, ?_⟩
  · rw [hopen]
    simp [return_book, fmtOptDate]
  · intro r2 hr2 hid
    simp only [List.mem_map] at hr2
    obtain ⟨r0, hr0, rfl⟩ := hr2
    by_cases h : r0.issue_id = r.issue_id
    · simp [h]
    · rw [if_neg (by simpa using h)] at hid ⊢
      exact absurd hid h
  · intro b hb hid
    simp only [List.mem_map] at hb
    obtain ⟨b0, hb0, rfl⟩ := hb
    by_cases h : b0.book_id = r.book_id
    · simp [h]
    · rw [if_neg (by simpa using h)] at hid ⊢
      exact absurd hid h
  · have h1 := isoformat_ne_empty today
    have h2 := isoformat_ne_none_str today
    simp [return_book, fmtOptDate, h1, h2]

/-- Concrete instantiation of `c2_return_twice` on `dbR`. -/
theorem c2_return_twice_witness :
    ∃ db2 : DB,
      return_book dbR 1 1 (fmtOptDate (⟨1, 1, 1, some dW, none⟩ : IssueRecord).return_date) dW2
        = some db2
      ∧ (∀ r2 ∈ db2.issued, r2.issue_id = 1 → r2.return_date = some dW2)
      ∧ (∀ b ∈ db2.books, b.book_id = 1 → b.status = "Available")
      ∧ return_book db2 1 1 (fmtOptDate (some dW2)) dW = none :=
  c2_return_twice dbR ⟨1, 1, 1, some dW, none⟩ dW2 dW (by decide) rfl

/-! ### Claim C4 -/

/-- Some tail of any character list is empty (the last one). -/
theorem any_isEmpty_tails (t : List Char) :
    t.tails.any (fun l => l.isEmpty) = true := by
  induction t with
  | nil => rfl
  | cons h t2 ih => simp only [List.tails_cons, List.any_cons, ih, Bool.or_true]

/-- On a wildcard-free pattern followed by a single `%`, the `LIKE` matcher
is exactly the case-insensitive prefix test. -/
theorem likeMatch_plain_pct (q : List Char) (hq : ∀ c ∈ q, c ≠ '%' ∧ c ≠ '_') :
    ∀ t : List Char, likeMatch (q ++ ['%']) t = isPrefixCI q t := by
  induction q with
  | nil =>
    intro t
    simp only [List.nil_append, likeMatch, isPrefixCI]
    rw [if_pos trivial]
    exact any_isEmpty_tails t
  | cons c cs ih =>
    intro t
    have hc := hq c (List.mem_cons_self c cs)
    have ih2 := ih (fun c2 hc2 => hq c2 (List.mem_cons_of_mem c hc2))
    match t with
    | [] =>
      simp only [List.cons_append, likeMatch, isPrefixCI, if_neg hc.1]
    | h :: t2 =>
      simp only [List.cons_append, likeMatch, isPrefixCI, if_neg hc.1,
        List.append_eq, ih2 t2]
      have : (c == '_') = false := by
        simpa using hc.2
      rw [this, Bool.false_or]

/-- For a query without `LIKE` metacharacters, the code's
`LIKE '%'+q+'%'` condition is exactly case-insensitive substring
containment. -/
theorem sqlLike_eq_containsCI (hay q : String) (hw : noWildcard q = true) :
    sqlLike hay q = containsCI hay q := by
  have hq : ∀ c ∈ q.toList, c ≠ '%' ∧ c ≠ '_' := by
    simp only [noWildcard, List.all_eq_true, Bool.and_eq_true, Bool.not_eq_true',
      beq_eq_false_iff_ne, ne_eq] at hw
    exact fun c hc => ⟨(hw c hc).1.1, (hw c hc).1.2⟩
  unfold sqlLike containsCI
  simp only [likeMatch]
  have : (fun t => likeMatch (q.toList ++ ['%']) t)
      = (fun t => isPrefixCI q.toList t) := by
    funext t
    exact likeMatch_plain_pct q.toList hq t
  rw [this, if_pos trivial]

/-- Claim C4 as stated is false: the code strips the query first, so the
non-empty query `" "` returns every stored row instead of only the rows
containing a space — exhibited on a single student whose fields contain no
space. -/
theorem c4_search_cx :
    search_students dbX " " ≠ claimSearchStudents dbX " " := by
  decide

/-- Claim C4 amended: both search handlers first strip surrounding
whitespace from the query; a query that is blank after stripping returns
every row, and otherwise — provided the stripped query contains no `LIKE`
metacharacter (`%`, `_`) or escape character (`\`) — the result is exactly
the rows whose name/course (students) or title/author (books) contains the
stripped query as a substring, case-insensitively. -/
theorem c4_search_like (db : DB) (q : String) :
    (pyStrip q = "" → search_students db q = db.students ∧ search_books db q = db.books)
    ∧ (pyStrip q ≠ "" → noWildcard (pyStrip q) = true →
        search_students db q = db.students.filter (fun s =>
          containsCI s.name (pyStrip q) || containsCI s.course (pyStrip q))
        ∧ search_books db q = db.books.filter (fun b =>
          containsCI b.title (pyStrip q) || containsCI b.author (pyStrip q))) := by
  constructor
  · intro h
    constructor
    · simp [search_students, h]
    · simp [search_books, h]
  · intro h hw
    constructor
    · simp only [search_students, if_neg h]
      exact List.filter_congr (fun s _ => by
        rw [sqlLike_eq_containsCI s.name _ hw, sqlLike_eq_containsCI s.course _ hw])
    · simp only [search_books, if_neg h]
      exact List.filter_congr (fun b _ => by
        rw [sqlLike_eq_containsCI b.title _ hw, sqlLike_eq_containsCI b.author _ hw])

/-- Concrete instantiation of `c4_search_like` on `dbW` with the query
`" ash "`, whose stripped form matches `"Asha Rao"` case-insensitively. -/
theorem c4_search_like_witness :
    search_students dbW " ash " = dbW.students.filter (fun s =>
      containsCI s.name (pyStrip " ash ") || containsCI s.course (pyStrip " ash "))
    ∧ search_books dbW " ash " = dbW.books.filter (fun b =>
      containsCI b.title (pyStrip " ash ") || containsCI b.author (pyStrip " ash ")) :=
  (c4_search_like dbW " ash ").2 (by decide) (by decide)

/-! ### Claim C6 -/

/-- When `f` succeeds on every element, `filterMap f` is a plain `map`. -/
theorem filterMap_eq_map_getD {α β : Type} [Inhabited β] (f : α → Option β) :
    ∀ l : List α, (∀ a ∈ l, (f a).isSome = true) →
      l.filterMap f = l.map (fun a => (f a).getD default) := by
  intro l
  induction l with
  | nil => intro _; rfl
  | cons x t ih =>
    intro h
    obtain ⟨b, hb⟩ := Option.isSome_iff_exists.mp (h x (List.mem_cons_self x t))
    simp only [List.filterMap_cons, List.map_cons, hb, Option.getD_some]
    rw [ih (fun a ha => h a (List.mem_cons_of_mem x ha))]

/-- Claim C6: when every issue record's foreign keys resolve (as the
cascading schema guarantees), `fetch_issued` lists the rows sorted newest
issue id first, as a permutation of one joined row per issue record, each
row carrying the student's name and book's title and the dates rendered in
ISO-8601 format with `""` for a null return date. -/
theorem c6_list_issued (db : DB)
    (hj : ∀ r ∈ db.issued, (joinRow db r).isSome = true) :
    List.Sorted rowGE (fetch_issued db)
    ∧ List.Perm (fetch_issued db) (db.issued.map (fun r => (joinRow db r).getD default))
    ∧ (∀ r ∈ db.issued, ∀ s : Student,
        db.students.find? (fun x => x.student_id == r.student_id) = some s →
        ∀ b : Book, db.books.find? (fun x => x.book_id == r.book_id) = some b →
        joinRow db r = some ⟨r.issue_id, s.student_id, s.name, b.book_id, b.title,
          fmtOptDate r.issue_date, fmtOptDate r.return_date⟩)
    ∧ fmtOptDate none = ""
    ∧ (∀ d : PyDate, fmtOptDate (some d) = PyDate.isoformat d) := by
  refine ⟨?_, ?_, ?_, rfl, fun d => rfl⟩
  · unfold fetch_issued
    exact List.sorted_insertionSort rowGE _
  · unfold fetch_issued
    rw [filterMap_eq_map_getD _ _ hj]
    exact List.perm_insertionSort rowGE _
  · intro r hr s hs b hb
    simp [joinRow, hs, hb]

/-- Concrete instantiation of `c6_list_issued` on `dbJ`. -/
theorem c6_list_issued_witness :
    List.Sorted rowGE (fetch_issued dbJ)
    ∧ List.Perm (fetch_issued dbJ) (dbJ.issued.map (fun r => (joinRow dbJ r).getD default))
    ∧ (∀ r ∈ dbJ.issued, ∀ s : Student,
        dbJ.students.find? (fun x => x.student_id == r.student_id) = some s →
        ∀ b : Book, dbJ.books.find? (fun x => x.book_id == r.book_id) = some b →
        joinRow dbJ r = some ⟨r.issue_id, s.student_id, s.name, b.book_id, b.title,
          fmtOptDate r.issue_date, fmtOptDate r.return_date⟩)
    ∧ fmtOptDate none = ""
    ∧ (∀ d : PyDate, fmtOptDate (some d) = PyDate.isoformat d) :=
  c6_list_issued dbJ (by decide)

/-! ### Claim C3 -/

/-- Membership characterization of the open records of a book. -/
theorem mem_openRecs {l : List IssueRecord} {bid : Nat} {r : IssueRecord} :
    r ∈ openRecs l bid ↔ r ∈ l ∧ r.book_id = bid ∧ r.return_date = none := by
  simp [openRecs, isOpenRec, List.mem_filter, Option.isNone_iff_eq_none, and_assoc]

/-- Open records distribute over list append. -/
theorem openRecs_append (l1 l2 : List IssueRecord) (bid : Nat) :
    openRecs (l1 ++ l2) bid = openRecs l1 bid ++ openRecs l2 bid :=
  List.filter_append l1 l2

/-- Deleting records (any filter) only shrinks the open records. -/
theorem openRecs_filter_sublist (p : IssueRecord → Bool) (l : List IssueRecord)
    (bid : Nat) :
    List.Sublist (openRecs (l.filter p) bid) (openRecs l bid) :=
  List.Sublist.filter _ (List.filter_sublist l)

/-- A list of length at most one that contains `a` is exactly `[a]`. -/
theorem eq_singleton_of_mem_of_length_le_one {α : Type} {l : List α} {a : α}
    (h : l.length ≤ 1) (ha : a ∈ l) : l = [a] := by
  match l with
  | [] => cases ha
  | [x] =>
    obtain rfl : a = x := by simpa using ha
    rfl
  | x :: y :: t =>
    simp only [List.length_cons] at h
    omega

/-- Mapping a function that fixes every element left "open" cannot increase
the number of open records. -/
theorem length_filter_map_le {α : Type} (f : α → α) (p : α → Bool)
    (hf : ∀ x, p (f x) = true → f x = x) :
    ∀ l : List α, ((l.map f).filter p).length ≤ (l.filter p).length := by
  intro l
  induction l with
  | nil => simp
  | cons x t ih =>
    simp only [List.map_cons, List.filter_cons]
    by_cases hx : p (f x) = true
    · have hfx := hf x hx
      have hpx : p x = true := by rw [← hfx]; exact hx
      rw [if_pos hx, if_pos hpx]
      simpa using Nat.succ_le_succ ih
    · rw [if_neg hx]
      refine le_trans ih ?_
      split
      · exact Nat.le_succ _
      · exact Nat.le_refl _

/-- The invariant only reads books, issued records and the book counter. -/
theorem wfInv_congr {db db2 : DB} (h : WfInv db)
    (hb : db2.books = db.books) (hi : db2.issued = db.issued)
    (hn : db2.next_book_id = db.next_book_id) : WfInv db2 := by
  unfold WfInv atMostOneOpen availClean booksBounded issuedBounded at h ⊢
  rw [hb, hi, hn]
  exact h

/-- Adding a student preserves the invariant. -/
theorem wfInv_add_student (db : DB) (n a c y : String) (h : WfInv db) :
    WfInv (excDB db (add_student db n a c y)) := by
  by_cases hn : pyStrip n = ""
  · simp only [add_student, if_pos hn, excDB]
    exact h
  · simp only [add_student, if_neg hn, excDB]
    exact wfInv_congr h rfl rfl rfl

/-- Updating a student preserves the invariant. -/
theorem wfInv_update_student (db : DB) (sid : Nat) (n a c y : String)
    (h : WfInv db) :
    WfInv (excDB db (update_student db sid n a c y)) := by
  by_cases hn : pyStrip n = ""
  · simp only [update_student, if_pos hn, excDB]
    exact h
  · simp only [update_student, if_neg hn, excDB]
    exact wfInv_congr h rfl rfl rfl

/-- Deleting a student (cascade on its issue records) preserves the
invariant. -/
theorem wfInv_delete_student (db : DB) (sid : Nat) (h : WfInv db) :
    WfInv (delete_student db sid) := by
  obtain ⟨h1, h2, h3, h4⟩ := h
  refine ⟨?_, ?_, h3, ?_⟩
  · intro bid
    exact le_trans (List.Sublist.length_le (openRecs_filter_sublist _ _ _)) (h1 bid)
  · intro b hb hstat
    have hsub := openRecs_filter_sublist
      (fun r : IssueRecord => !(r.student_id == sid)) db.issued b.book_id
    rw [h2 b hb hstat] at hsub
    exact List.sublist_nil.mp hsub
  · intro r hr
    exact h4 r (List.mem_of_mem_filter hr)

/-- Deleting a book (cascade on its issue records) preserves the
invariant. -/
theorem wfInv_delete_book (db : DB) (bid : Nat) (h : WfInv db) :
    WfInv (delete_book db bid) := by
  obtain ⟨h1, h2, h3, h4⟩ := h
  refine ⟨?_, ?_, ?_, ?_⟩
  · intro bid2
    exact le_trans (List.Sublist.length_le (openRecs_filter_sublist _ _ _)) (h1 bid2)
  · intro b hb hstat
    have hsub := openRecs_filter_sublist
      (fun r : IssueRecord => !(r.book_id == bid)) db.issued b.book_id
    rw [h2 b (List.mem_of_mem_filter hb) hstat] at hsub
    exact List.sublist_nil.mp hsub
  · intro b hb
    exact h3 b (List.mem_of_mem_filter hb)
  · intro r hr
    exact h4 r (List.mem_of_mem_filter hr)

/-- Adding a book preserves the invariant: the new book is Available with a
fresh id, so it has no issue records at all. -/
theorem wfInv_add_book (db : DB) (t au py : String) (h : WfInv db) :
    WfInv (excDB db (add_book db t au py)) := by
  by_cases ht : pyStrip t = ""
  · simp only [add_book, if_pos ht, excDB]
    exact h
  · simp only [add_book, if_neg ht, excDB]
    obtain ⟨h1, h2, h3, h4⟩ := h
    refine ⟨h1, ?_, ?_, ?_⟩
    · intro b hb hstat
      rcases List.mem_append.mp hb with hb2 | hb2
      · exact h2 b hb2 hstat
      · have hbeq : b.book_id = db.next_book_id := by
          obtain rfl : b = ⟨db.next_book_id, pyStrip t, pyStrip au,
              int_or_none py, "Available"⟩ := by simpa using hb2
          rfl
        refine List.eq_nil_iff_forall_not_mem.mpr ?_
        intro r hrmem
        rcases mem_openRecs.mp hrmem with ⟨hrl, hrb, _⟩
        have hlt := h4 r hrl
        rw [hrb, hbeq] at hlt
        exact Nat.lt_irrefl _ hlt
    · intro b hb
      rcases List.mem_append.mp hb with hb2 | hb2
      · exact Nat.lt_succ_of_lt (h3 b hb2)
      · obtain rfl : b = ⟨db.next_book_id, pyStrip t, pyStrip au,
            int_or_none py, "Available"⟩ := by simpa using hb2
        exact Nat.lt_succ_self db.next_book_id
    · intro r hr
      exact Nat.lt_succ_of_lt (h4 r hr)

/-- Updating a book's title, author or publication year preserves the
invariant (id and status are untouched). -/
theorem wfInv_update_book (db : DB) (bid : Nat) (t au py : String)
    (h : WfInv db) :
    WfInv (excDB db (update_book db bid t au py)) := by
  by_cases ht : pyStrip t = ""
  · simp only [update_book, if_pos ht, excDB]
    exact h
  · simp only [update_book, if_neg ht, excDB]
    obtain ⟨h1, h2, h3, h4⟩ := h
    refine ⟨h1, ?_, ?_, h4⟩
    · intro b hb hstat
      obtain ⟨b0, hb0, rfl⟩ := List.mem_map.mp hb
      have hbid : (if b0.book_id == bid then
          { b0 with title := (pyStrip t), author := (pyStrip au),
                    pub_year := int_or_none py }
          else b0).book_id = b0.book_id := by
        split <;> rfl
      have hst : (if b0.book_id == bid then
          { b0 with title := (pyStrip t), author := (pyStrip au),
                    pub_year := int_or_none py }
          else b0).status = b0.status := by
        split <;> rfl
      rw [hst] at hstat
      rw [hbid]
      exact h2 b0 hb0 hstat
    · intro b hb
      obtain ⟨b0, hb0, rfl⟩ := List.mem_map.mp hb
      have hbid : (if b0.book_id == bid then
          { b0 with title := (pyStrip t), author := (pyStrip au),
                    pub_year := int_or_none py }
          else b0).book_id = b0.book_id := by
        split <;> rfl
      rw [hbid]
      exact h3 b0 hb0

/-- Issuing a book offered by the Available picker preserves the invariant:
that book had no open record, so it gains exactly one, and it leaves the
Available listing. -/
theorem wfInv_issue (db : DB) (sid bid : Nat) (today : PyDate)
    (hb : bid ∈ (available_books db).map Prod.fst) (h : WfInv db) :
    WfInv (issue_book db sid bid today) := by
  obtain ⟨h1, h2, h3, h4⟩ := h
  obtain ⟨p, hp, hpfst⟩ := List.mem_map.mp hb
  simp only [available_books, List.mem_map, List.mem_filter] at hp
  obtain ⟨b0, ⟨hb0, hb0stat⟩, rfl⟩ := hp
  have hbid : b0.book_id = bid := hpfst
  have hstat : b0.status = "Available" := by simpa using hb0stat
  have hopen0 : openRecs db.issued bid = [] := by
    rw [← hbid]
    exact h2 b0 hb0 hstat
  have hsingle : openRecs [⟨db.next_issue_id, sid, bid, some today, none⟩] bid
      = [⟨db.next_issue_id, sid, bid, some today, none⟩] := by
    simp [openRecs, isOpenRec]
  have hnone : ∀ bid2 : Nat, bid2 ≠ bid →
      openRecs [⟨db.next_issue_id, sid, bid, some today, none⟩] bid2 = [] := by
    intro bid2 hne
    simp only [openRecs, isOpenRec, List.filter]
    have : ((⟨db.next_issue_id, sid, bid, some today, none⟩ : IssueRecord).book_id
        == bid2) = false := by
      simpa using fun hcon => hne (hcon.symm)
    simp [this]
  refine ⟨?_, ?_, ?_, ?_⟩
  · intro bid2
    by_cases hcase : bid2 = bid
    · subst hcase
      show (openRecs (db.issued ++ [⟨db.next_issue_id, sid, bid2, some today, none⟩]) bid2).length ≤ 1
      rw [openRecs_append, hopen0, hsingle]
      simp
    · show (openRecs (db.issued ++ [⟨db.next_issue_id, sid, bid, some today, none⟩]) bid2).length ≤ 1
      rw [openRecs_append, hnone bid2 hcase]
      simpa using h1 bid2
  · intro b hbm hbstat
    obtain ⟨b1, hb1, rfl⟩ := List.mem_map.mp hbm
    by_cases hid : b1.book_id = bid
    · rw [if_pos (by simpa using hid)] at hbstat
      simp at hbstat
    · rw [if_neg (by simpa using hid)] at hbstat ⊢
      show openRecs (db.issued ++ [⟨db.next_issue_id, sid, bid, some today, none⟩]) b1.book_id = []
      rw [openRecs_append, h2 b1 hb1 hbstat, hnone b1.book_id hid]
      rfl
  · intro b hbm
    obtain ⟨b1, hb1, rfl⟩ := List.mem_map.mp hbm
    have : (if b1.book_id == bid then { b1 with status := "Issued" } else b1).book_id
        = b1.book_id := by
      split <;> rfl
    rw [this]
    exact h3 b1 hb1
  · intro r hr
    rcases List.mem_append.mp hr with hr2 | hr2
    · exact h4 r hr2
    · obtain rfl : r = ⟨db.next_issue_id, sid, bid, some today, none⟩ := by simpa using hr2
      show bid < db.next_book_id
      rw [← hbid]
      exact h3 b0 hb0

/-- Returning from a displayed row of an existing record preserves the
invariant: on an already-returned record nothing is written; on an open
record (the unique open one for its book) the record closes and the book
goes back to Available with no open record left. -/
theorem wfInv_ret (db : DB) (r : IssueRecord) (today : PyDate)
    (hr : r ∈ db.issued) (h : WfInv db) :
    WfInv ((return_book db r.issue_id r.book_id (fmtOptDate r.return_date) today).getD db) := by
  rcases hret : r.return_date with _ | d
  · -- open record: the update goes through
    show WfInv ((return_book db r.issue_id r.book_id (fmtOptDate none) today).getD db)
    unfold return_book fmtOptDate
    rw [if_pos (Or.inl rfl)]
    simp only [Option.getD_some]
    obtain ⟨h1, h2, h3, h4⟩ := h
    have hfix : ∀ (bid2 : Nat) (x : IssueRecord),
        isOpenRec bid2 (if x.issue_id == r.issue_id
          then { x with return_date := some today } else x) = true →
        (if x.issue_id == r.issue_id
          then { x with return_date := some today } else x) = x := by
      intro bid2 x hx
      by_cases hix : x.issue_id = r.issue_id
      · rw [if_pos (by simpa using hix)] at hx
        simp [isOpenRec] at hx
      · exact if_neg (by simpa using hix)
    refine ⟨?_, ?_, ?_, ?_⟩
    · intro bid2
      exact le_trans
        (length_filter_map_le _ (isOpenRec bid2) (fun x => hfix bid2 x) db.issued)
        (h1 bid2)
    · intro b hbm hbstat
      obtain ⟨b1, hb1, rfl⟩ := List.mem_map.mp hbm
      by_cases hid : b1.book_id = r.book_id
      · have hbid : (if b1.book_id == r.book_id
            then { b1 with status := "Available" } else b1).book_id = b1.book_id := by
          split <;> rfl
        rw [hbid, hid]
        have hrOpen : r ∈ openRecs db.issued r.book_id := mem_openRecs.mpr ⟨hr, rfl, hret⟩
        have hsingle : openRecs db.issued r.book_id = [r] :=
          eq_singleton_of_mem_of_length_le_one (h1 r.book_id) hrOpen
        refine List.eq_nil_iff_forall_not_mem.mpr ?_
        intro x hx
        rcases List.mem_filter.mp hx with ⟨hm, hp⟩
        obtain ⟨x0, hx0, rfl⟩ := List.mem_map.mp hm
        by_cases hix : x0.issue_id = r.issue_id
        · rw [if_pos (by simpa using hix)] at hp
          simp [isOpenRec] at hp
        · rw [if_neg (by simpa using hix)] at hp
          have hx0open : x0 ∈ openRecs db.issued r.book_id :=
            List.mem_filter.mpr ⟨hx0, hp⟩
          rw [hsingle] at hx0open
          have : x0 = r := by simpa using hx0open
          exact hix (by rw [this])
      · have hbeq : (if b1.book_id == r.book_id
            then { b1 with status := "Available" } else b1) = b1 :=
          if_neg (by simpa using hid)
        rw [hbeq] at hbstat ⊢
        have hempty := h2 b1 hb1 hbstat
        refine List.eq_nil_iff_forall_not_mem.mpr ?_
        intro x hx
        rcases List.mem_filter.mp hx with ⟨hm, hp⟩
        obtain ⟨x0, hx0, rfl⟩ := List.mem_map.mp hm
        have hfx := hfix b1.book_id x0 hp
        rw [hfx] at hp
        have hx0open : x0 ∈ openRecs db.issued b1.book_id :=
          List.mem_filter.mpr ⟨hx0, hp⟩
        rw [hempty] at hx0open
        cases hx0open
    · intro b hbm
      obtain ⟨b1, hb1, rfl⟩ := List.mem_map.mp hbm
      have hbid : (if b1.book_id == r.book_id
          then { b1 with status := "Available" } else b1).book_id = b1.book_id := by
        split <;> rfl
      rw [hbid]
      exact h3 b1 hb1
    · intro x hx
      obtain ⟨x0, hx0, rfl⟩ := List.mem_map.mp hx
      have hxb : (if x0.issue_id == r.issue_id
          then { x0 with return_date := some today } else x0).book_id = x0.book_id := by
        split <;> rfl
      rw [hxb]
      exact h4 x0 hx0
  · -- already returned: the error path writes nothing
    show WfInv ((return_book db r.issue_id r.book_id (fmtOptDate (some d)) today).getD db)
    unfold return_book fmtOptDate
    rw [if_neg ?hcond]
    case hcond =>
      rintro (hc | hc)
      · exact isoformat_ne_empty d hc
      · exact isoformat_ne_none_str d hc
    exact h

/-- Every workflow step preserves the inductive invariant. -/
theorem wfInv_step {db db2 : DB} (h : WfInv db) (hs : Step db db2) : WfInv db2 := by
  cases hs with
  | addStudent n a c y => exact wfInv_add_student db n a c y h
  | updateStudent sid n a c y => exact wfInv_update_student db sid n a c y h
  | deleteStudent sid => exact wfInv_delete_student db sid h
  | addBook t au py => exact wfInv_add_book db t au py h
  | updateBook bid t au py => exact wfInv_update_book db bid t au py h
  | deleteBook bid => exact wfInv_delete_book db bid h
  | issue sid bid today hb => exact wfInv_issue db sid bid today hb h
  | ret r today hr => exact wfInv_ret db r today hr h

/-- The freshly initialized store satisfies the invariant. -/
theorem wfInv_initDB : WfInv initDB := by
  refine ⟨fun _ => Nat.zero_le 1, ?_, ?_, ?_⟩
  · intro b hb
    cases hb
  · intro b hb
    cases hb
  · intro r hr
    cases hr

/-- Every reachable state satisfies the inductive invariant. -/
theorem reachable_wfInv {db : DB} (h : Reachable db) : WfInv db := by
  induction h with
  | init => exact wfInv_initDB
  | step _ hstep ih => exact wfInv_step ih hstep

/-- Claim C3: from any reachable state in which every book has at most one
open issue record, every workflow operation — with issue restricted to
books offered by the Available picker, as `Step` encodes — preserves that
soft invariant. -/
theorem c3_soft_invariant (db db2 : DB) (hreach : Reachable db)
    (hone : atMostOneOpen db) (hstep : Step db db2) : atMostOneOpen db2 :=
  (wfInv_step (reachable_wfInv hreach) hstep).1

/-- Concrete instantiation of `c3_soft_invariant`: one add-student step
from the initial state. -/
theorem c3_soft_invariant_witness :
    atMostOneOpen (excDB initDB (add_student initDB "Asha" "20" "CS" "2")) :=
  c3_soft_invariant initDB _ Reachable.init (fun _ => Nat.zero_le 1)
    (Step.addStudent initDB "Asha" "20" "CS" "2")
